import Mathlib

/-!
Shallow embedding of the `suk` single-use-key session store (Go).

The in-memory backend (`syncMap` in `suk.go`) is a map from generated key
strings to `value{data any, expiration time.Time}` records.  We model:

* keys as lists of alphabet indices (`randomID` draws each character
  uniformly from the 95-character `stringBuffer` of `random.go`; a key of
  length `n` is the list of the `n` drawn buffer indices);
* Go `any` payloads by the inductive `GoAny`: `nil`, an opaque user payload
  `base s`, or a `value` struct `wrap d e` (data `d`, expiration `e`) stored
  as an `any` — `syncMap.get` passes the loaded `value` struct itself back
  into `set`, so stored data can be a wrapped `value`;
* absolute times and durations as integers (nanoseconds);
  `time.Until(e) <= 0` at instant `now` is `e ≤ now`, and
  `time.Now().Add(d)` is `now + d`;
* the randomness source consumed by `randomID` as a function
  `Nat → Nat` giving the successive outputs of `rand.Int`, and the
  successive `randomID` results available to a `set` call as an explicit
  list of candidate keys (an exhausted list models the error return of
  `randomID` when the random source fails);
* the `sync.Map` as an association list with operations `loadS`
  (`Load`/`LoadAndDelete` lookup), `eraseS` (`Delete`), `storeS` (`Store`).
-/

deriving instance DecidableEq for Except

/-- A generated key: the list of `stringBuffer` indices drawn by `randomID`. -/
abbrev Key := List Nat

/-- Model of a Go `any` as used by the store: `nil`, an opaque user payload,
or a `value{data, expiration}` struct stored as an `any`. -/
inductive GoAny where
  | nil : GoAny
  | base : String → GoAny
  | wrap : GoAny → Int → GoAny
deriving DecidableEq, Repr

/-- Contents of the `sync.Map`: entries `(key, data, expiration)`, each the
image of one stored `value` struct. -/
abbrev Store := List (Key × GoAny × Int)

/-- The errors of the package: `ErrKeyWasExpired`, `ErrNoKeyFound`,
`ErrNilSession` (suk.go) and the error path of `randomID` (random.go). -/
inductive SukErr where
  | keyWasExpired : SukErr
  | noKeyFound : SukErr
  | nilSession : SukErr
  | randomSource : SukErr
deriving DecidableEq, Repr

/-- Number of characters in `stringBuffer` of `random.go` (printable ASCII
subset, 95 characters). -/
def stringBufferLength : Nat := 95

/-- Embedding of `randomID(n)` from `random.go`: the i-th character is
`stringBuffer[num]` with `num = rand.Int(rand.Reader, 95)`; `rnd i` is the
i-th output of the random source, reduced mod 95 for totality. -/
def randomID (n : Nat) (rnd : Nat → Nat) : Key :=
  (List.range n).map (fun i => rnd i % stringBufferLength)

/-- Lookup in the association list modelling `sync.Map.Load`. -/
def loadS : Store → Key → Option (GoAny × Int)
  | [], _ => none
  | e :: es, k => if e.1 = k then some e.2 else loadS es k

/-- Deletion of a key, modelling `sync.Map.Delete`. -/
def eraseS : Store → Key → Store
  | [], _ => []
  | e :: es, k => if e.1 = k then eraseS es k else e :: eraseS es k

/-- Insertion modelling `sync.Map.Store` (replaces any entry at the key). -/
def storeS (s : Store) (k : Key) (v : GoAny × Int) : Store :=
  eraseS s k ++ [(k, v)]

/-- State of the in-memory backend `syncMap` of `suk.go`: the map contents
plus the `keyLength` and `durationToExpire` fields. -/
structure SyncMap where
  entries : Store
  keyLength : Nat
  durationToExpire : Int
deriving DecidableEq, Repr

/-- The retry loop of `syncMap.set`: take the first candidate key that is
not currently loaded and store `value{data: session, expiration: now+dur}`
under it; an exhausted candidate list models `randomID` failing. -/
def setLoop (s : Store) (session : GoAny) (exp : Int) : List Key → Except SukErr (Key × Store)
  | [] => .error .randomSource
  | k :: ks =>
    if (loadS s k).isSome then setLoop s session exp ks
    else .ok (k, storeS s k (session, exp))

/-- Embedding of `syncMap.set` (suk.go lines 51-77): reject a nil session,
then generate keys until one is free and store the record with expiration
`time.Now().Add(s.durationToExpire)`. `cands` are the successive `randomID`
outputs; the Go return pair `(string, error)` together with the mutated
receiver becomes `Except SukErr Key × SyncMap`. -/
def SyncMap.set (sm : SyncMap) (session : GoAny) (now : Int) (cands : List Key) :
    Except SukErr Key × SyncMap :=
  if session = GoAny.nil then (.error .nilSession, sm)
  else
    match setLoop sm.entries session (now + sm.durationToExpire) cands with
    | .error e => (.error e, sm)
    | .ok (k, s) => (.ok k, { sm with entries := s })

/-- Embedding of `syncMap.get` (suk.go lines 79-96): `LoadAndDelete` the
key; absent means `ErrNoKeyFound`; an expired record means
`ErrKeyWasExpired` (the record stays deleted); otherwise re-`set` the loaded
`any` — which is the whole `value` struct `wrap d e`, not `d` — under a new
key and return `(v.data, newKey)`. -/
def SyncMap.get (sm : SyncMap) (key : Key) (now : Int) (cands : List Key) :
    Except SukErr (GoAny × Key) × SyncMap :=
  match loadS sm.entries key with
  | none => (.error .noKeyFound, sm)
  | some (d, exp) =>
    let sm1 : SyncMap := { sm with entries := eraseS sm.entries key }
    if exp ≤ now then (.error .keyWasExpired, sm1)
    else
      match sm1.set (GoAny.wrap d exp) now cands with
      | (.error e, sm2) => (.error e, sm2)
      | (.ok nk, sm2) => (.ok (d, nk), sm2)

/-- Embedding of `syncMap.remove` (suk.go lines 98-101): delete the key,
always return a nil error. -/
def SyncMap.remove (sm : SyncMap) (key : Key) : Except SukErr Unit × SyncMap :=
  (.ok (), { sm with entries := eraseS sm.entries key })

/-- One pass of the `Range` body of `syncMap.clearExpired`: drop every
entry whose expiration has passed. -/
def clearExpiredS (now : Int) : Store → Store
  | [] => []
  | e :: es => if e.2.2 ≤ now then clearExpiredS now es else e :: clearExpiredS now es

/-- Embedding of `syncMap.clearExpired` (suk.go lines 103-112). -/
def SyncMap.clearExpired (sm : SyncMap) (now : Int) : Except SukErr Unit × SyncMap :=
  (.ok (), { sm with entries := clearExpiredS now sm.entries })

/-- Embedding of `redisDB.clearExpired` (suk.go lines 174-176): the body is
`return nil` — the client state `r` is untouched and no error is returned. -/
def redisClearExpired {α : Type} (r : α) : Except SukErr Unit × α :=
  (.ok (), r)

/-- `syncMap.set` with the random source made explicit: the candidate keys
are the outputs of `randomID(s.keyLength)` on the successive random
streams. -/
def SyncMap.setR (sm : SyncMap) (session : GoAny) (now : Int) (rnds : List (Nat → Nat)) :
    Except SukErr Key × SyncMap :=
  sm.set session now (rnds.map (fun r => randomID sm.keyLength r))

/-- `syncMap.get` with the random source made explicit, as in `setR`. -/
def SyncMap.getR (sm : SyncMap) (key : Key) (now : Int) (rnds : List (Nat → Nat)) :
    Except SukErr (GoAny × Key) × SyncMap :=
  sm.get key now (rnds.map (fun r => randomID sm.keyLength r))

/-- The named configuration error values of `config.go` (both the
`NewSessionStorage`-era file and the `New`-era file): each constructor is
one distinct `errors.New` value. -/
inductive CfgErr where
  | nilRedisClient : CfgErr
  | redisClientAlreadySet : CfgErr
  | customKeyLengthAlreadySet : CfgErr
  | customTokenDurationAlreadySet : CfgErr
  | autoExpiredClearAlreadySet : CfgErr
  | customKeyDurationAlreadySet : CfgErr
  | zeroKeyLength : CfgErr
  | nonPositiveKeyDuration : CfgErr
deriving DecidableEq, Repr

/-- The `config` struct of `config.go` as used by `NewSessionStorage`
(suk.go): optional key length, optional token duration, optional
auto-expired-clear flag, and whether a Redis client/context pair was
registered. -/
structure Config1 where
  autoExpiredClear : Option Bool := none
  customKeyLength : Option Nat := none
  customTokenDuration : Option Int := none
  redisSet : Bool := false
deriving DecidableEq, Repr

/-- The options of `config.go` in the `NewSessionStorage` revision:
`WithRedis` (with a flag for a nil client), `WithCustomKeyLength`,
`WithTokenDuration`, `WithAutoExpiredClear`. -/
inductive Opt1 where
  | withRedis : Bool → Opt1
  | withCustomKeyLength : Nat → Opt1
  | withTokenDuration : Int → Opt1
  | withAutoExpiredClear : Opt1
deriving DecidableEq, Repr

/-- Application of one option to the config, following `config.go`
(`NewSessionStorage` revision) line by line.  Note `WithAutoExpiredClear`
(config.go lines 86-96) returns `ErrCustomTokenDurationAlreadySet` — not
`ErrAutoExpiredClearAlreadySet` — when the flag is already set. -/
def Opt1.apply : Opt1 → Config1 → Except CfgErr Config1
  | .withRedis clientNil, c =>
    if c.redisSet then .error .redisClientAlreadySet
    else if clientNil then .error .nilRedisClient
    else .ok { c with redisSet := true }
  | .withCustomKeyLength l, c =>
    if c.customKeyLength.isSome then .error .customKeyLengthAlreadySet
    else .ok { c with customKeyLength := some l }
  | .withTokenDuration d, c =>
    if c.customTokenDuration.isSome then .error .customTokenDurationAlreadySet
    else .ok { c with customTokenDuration := some d }
  | .withAutoExpiredClear, c =>
    if c.autoExpiredClear.isSome then .error .customTokenDurationAlreadySet
    else .ok { c with autoExpiredClear := some true }

/-- The option-application loop of `NewSessionStorage` (suk.go lines
184-190): apply each option to the shared config, collecting every error in
order and leaving the config unchanged on a failing option. -/
def applyOpts1 : Config1 → List CfgErr → List Opt1 → Config1 × List CfgErr
  | c, errs, [] => (c, errs)
  | c, errs, o :: os =>
    match o.apply c with
    | .ok c1 => applyOpts1 c1 errs os
    | .error e => applyOpts1 c (errs ++ [e]) os

/-- `maxCookieSize` of suk.go (RFC 6265 reference size). -/
def maxCookieSize : Nat := 4096

/-- `defaultKeyLength` of the `New` revision (part_006 lines 23-25). -/
def defaultKeyLength : Nat := 32

/-- `defaultDurationToExpire = 10 * time.Minute`, in nanoseconds. -/
def defaultDurationToExpire : Int := 600000000000

/-- The backend selected by the constructor: the in-memory `syncMap`
or the Redis adapter (whose key length and duration we record). -/
inductive StorageChoice where
  | mem : SyncMap → StorageChoice
  | redis : Nat → Int → StorageChoice
deriving DecidableEq, Repr

/-- Key length carried by the chosen backend. -/
def StorageChoice.keyLength : StorageChoice → Nat
  | .mem sm => sm.keyLength
  | .redis kl _ => kl

/-- Embedding of `NewSessionStorage` (suk.go lines 183-239): apply the
options, return the joined error list if any option failed, otherwise build
the storage with key length defaulting to `maxCookieSize` and duration
defaulting to `defaultDurationToExpire`.  The background sweeper goroutine
is outside this state model. -/
def NewSessionStorage (opts : List Opt1) : Except (List CfgErr) StorageChoice :=
  let p := applyOpts1 {} [] opts
  if p.2 = [] then
    let kl := p.1.customKeyLength.getD maxCookieSize
    let dur := p.1.customTokenDuration.getD defaultDurationToExpire
    if p.1.redisSet then .ok (.redis kl dur)
    else .ok (.mem { entries := [], keyLength := kl, durationToExpire := dur })
  else .error p.2

/-- The `config` struct of the `New` revision of `config.go`: optional key
length, optional key duration, auto-clear flag, Redis registration. -/
structure Config2 where
  autoClearExpiredKeys : Bool := false
  customKeyLength : Option Nat := none
  customKeyDuration : Option Int := none
  redisSet : Bool := false
deriving DecidableEq, Repr

/-- The options of the `New` revision of `config.go`: `WithRedis`,
`WithKeyLength`, `WithKeyDuration`, `WithAutoClearExpiredKeys`. -/
inductive Opt2 where
  | withRedis : Bool → Opt2
  | withKeyLength : Nat → Opt2
  | withKeyDuration : Int → Opt2
  | withAutoClearExpiredKeys : Opt2
deriving DecidableEq, Repr

/-- Application of one `New`-revision option, following `config.go`
(lines 190-258 of the concatenated file): `WithKeyLength` rejects a
duplicate then a zero length, `WithKeyDuration` rejects a duplicate then a
non-positive duration, `WithAutoClearExpiredKeys` never fails. -/
def Opt2.apply : Opt2 → Config2 → Except CfgErr Config2
  | .withRedis clientNil, c =>
    if c.redisSet then .error .redisClientAlreadySet
    else if clientNil then .error .nilRedisClient
    else .ok { c with redisSet := true }
  | .withKeyLength l, c =>
    if c.customKeyLength.isSome then .error .customKeyLengthAlreadySet
    else if l = 0 then .error .zeroKeyLength
    else .ok { c with customKeyLength := some l }
  | .withKeyDuration d, c =>
    if c.customKeyDuration.isSome then .error .customKeyDurationAlreadySet
    else if d ≤ 0 then .error .nonPositiveKeyDuration
    else .ok { c with customKeyDuration := some d }
  | .withAutoClearExpiredKeys, c =>
    .ok { c with autoClearExpiredKeys := true }

/-- The option-application loop of `New` (part_006 lines 193-204). -/
def applyOpts2 : Config2 → List CfgErr → List Opt2 → Config2 × List CfgErr
  | c, errs, [] => (c, errs)
  | c, errs, o :: os =>
    match o.apply c with
    | .ok c1 => applyOpts2 c1 errs os
    | .error e => applyOpts2 c (errs ++ [e]) os

/-- Embedding of `New` (part_006 lines 192-249): as `NewSessionStorage`,
but the key length defaults to `defaultKeyLength = 32`. -/
def New (opts : List Opt2) : Except (List CfgErr) StorageChoice :=
  let p := applyOpts2 {} [] opts
  if p.2 = [] then
    let kl := p.1.customKeyLength.getD defaultKeyLength
    let dur := p.1.customKeyDuration.getD defaultDurationToExpire
    if p.1.redisSet then .ok (.redis kl dur)
    else .ok (.mem { entries := [], keyLength := kl, durationToExpire := dur })
  else .error p.2

/-- Direct recursion computing the error of every failing option in order,
each applied to the config as mutated by the earlier succeeding options —
the reference list for the aggregation behaviour of the constructor. -/
def collectErrs1 : Config1 → List Opt1 → List CfgErr
  | _, [] => []
  | c, o :: os =>
    match o.apply c with
    | .ok c1 => collectErrs1 c1 os
    | .error e => e :: collectErrs1 c os

/-- One store operation of the public surface, with the instant at which it
runs and the `randomID` candidate keys it may consume. -/
inductive Op where
  | opSet : GoAny → Int → List Key → Op
  | opGet : Key → Int → List Key → Op
  | opRemove : Key → Op
  | opClearExpired : Int → Op
deriving DecidableEq, Repr

/-- Candidate keys an operation may insert under. -/
def Op.cands : Op → List Key
  | .opSet _ _ cs => cs
  | .opGet _ _ cs => cs
  | .opRemove _ => []
  | .opClearExpired _ => []

/-- Post-state of one operation on the in-memory backend. -/
def SyncMap.step (sm : SyncMap) : Op → SyncMap
  | .opSet session now cs => (sm.set session now cs).2
  | .opGet k now cs => (sm.get k now cs).2
  | .opRemove k => (sm.remove k).2
  | .opClearExpired now => (sm.clearExpired now).2

/-- Post-state of a sequence of operations. -/
def SyncMap.run (sm : SyncMap) : List Op → SyncMap
  | [] => sm
  | o :: os => (sm.step o).run os

/-- The keys of the live records are pairwise distinct. -/
def KeysNodup (s : Store) : Prop :=
  (s.map (fun e => e.1)).Nodup

theorem loadS_none_iff (s : Store) (k : Key) :
    loadS s k = none ↔ ∀ e ∈ s, e.1 ≠ k := by
  induction s with
  | nil => simp [loadS]
  | cons e es ih =>
    by_cases h : e.1 = k
    · simp [loadS, h]
    · simp [loadS, h, ih]

theorem loadS_eraseS_self (s : Store) (k : Key) :
    loadS (eraseS s k) k = none := by
  induction s with
  | nil => simp [eraseS, loadS]
  | cons e es ih =>
    by_cases h : e.1 = k
    · simp [eraseS, h, ih]
    · simp [eraseS, loadS, h, ih]

theorem loadS_eraseS_ne (s : Store) (k k' : Key) (h : k' ≠ k) :
    loadS (eraseS s k) k' = loadS s k' := by
  induction s with
  | nil => simp [eraseS]
  | cons e es ih =>
    by_cases he : e.1 = k
    · simp [eraseS, loadS, he, Ne.symm h, ih]
    · by_cases he' : e.1 = k'
      · simp [eraseS, loadS, he, he', h]
      · simp [eraseS, loadS, he, he', ih]

theorem eraseS_sublist (s : Store) (k : Key) : (eraseS s k).Sublist s := by
  induction s with
  | nil => simp [eraseS]
  | cons e es ih =>
    by_cases h : e.1 = k
    · simpa [eraseS, h] using ih.cons e
    · simpa [eraseS, h] using ih.cons₂ e

theorem eraseS_of_loadS_none (s : Store) (k : Key) (h : loadS s k = none) :
    eraseS s k = s := by
  induction s with
  | nil => simp [eraseS]
  | cons e es ih =>
    rw [loadS_none_iff] at h
    have he : e.1 ≠ k := h e (by simp)
    have hes : loadS es k = none := by
      rw [loadS_none_iff]; exact fun x hx => h x (by simp [hx])
    simp [eraseS, he, ih hes]

theorem eraseS_idem (s : Store) (k : Key) :
    eraseS (eraseS s k) k = eraseS s k :=
  eraseS_of_loadS_none _ _ (loadS_eraseS_self s k)

theorem loadS_append_of_none (s t : Store) (k : Key) (h : loadS s k = none) :
    loadS (s ++ t) k = loadS t k := by
  induction s with
  | nil => simp
  | cons e es ih =>
    rw [loadS_none_iff] at h
    have he : e.1 ≠ k := h e (by simp)
    have hes : loadS es k = none := by
      rw [loadS_none_iff]; exact fun x hx => h x (by simp [hx])
    simp [loadS, he, ih hes]

theorem loadS_storeS_self (s : Store) (k : Key) (v : GoAny × Int) :
    loadS (storeS s k v) k = some v := by
  rw [storeS, loadS_append_of_none _ _ _ (loadS_eraseS_self s k)]
  simp [loadS]

theorem loadS_append_of_some (s t : Store) (k : Key) (v : GoAny × Int)
    (h : loadS s k = some v) : loadS (s ++ t) k = some v := by
  induction s with
  | nil => simp [loadS] at h
  | cons e es ih =>
    by_cases he : e.1 = k
    · simp [loadS, he] at h ⊢; exact h
    · simp [loadS, he] at h ⊢; exact ih h

theorem loadS_storeS_ne (s : Store) (k k' : Key) (v : GoAny × Int) (h : k' ≠ k) :
    loadS (storeS s k v) k' = loadS s k' := by
  rw [storeS]
  cases hl : loadS (eraseS s k) k' with
  | none =>
    rw [loadS_append_of_none _ _ _ hl]
    rw [loadS_eraseS_ne s k k' h] at hl
    simp [loadS, Ne.symm h, hl]
  | some v' =>
    rw [loadS_append_of_some _ _ _ _ hl]
    rw [loadS_eraseS_ne s k k' h] at hl
    exact hl.symm

theorem loadS_none_of_forall_ne {s : Store} {k : Key}
    (h : ∀ e ∈ s, e.1 ≠ k) : loadS s k = none :=
  (loadS_none_iff s k).2 h

theorem clearExpiredS_sublist (now : Int) (s : Store) :
    (clearExpiredS now s).Sublist s := by
  induction s with
  | nil => simp [clearExpiredS]
  | cons e es ih =>
    by_cases h : e.2.2 ≤ now
    · simpa [clearExpiredS, h] using ih.cons e
    · simpa [clearExpiredS, h] using ih.cons₂ e

theorem loadS_clearExpiredS_none (now : Int) (s : Store) (k : Key)
    (h : loadS s k = none) : loadS (clearExpiredS now s) k = none := by
  rw [loadS_none_iff] at h ⊢
  exact fun e he => h e ((clearExpiredS_sublist now s).subset he)

theorem setLoop_ok (s : Store) (session : GoAny) (exp : Int) (cands : List Key)
    (k : Key) (s' : Store) (h : setLoop s session exp cands = .ok (k, s')) :
    k ∈ cands ∧ loadS s k = none ∧ s' = storeS s k (session, exp) := by
  induction cands with
  | nil => simp [setLoop] at h
  | cons c cs ih =>
    cases hl : loadS s c with
    | some v =>
      rw [setLoop, hl] at h
      simp at h
      obtain ⟨h1, h2, h3⟩ := ih h
      exact ⟨by simp [h1], h2, h3⟩
    | none =>
      rw [setLoop, hl] at h
      simp at h
      obtain ⟨h1, h2⟩ := h
      subst h1
      exact ⟨by simp, hl, h2.symm⟩

theorem setLoop_error (s : Store) (session : GoAny) (exp : Int) (cands : List Key)
    (e : SukErr) (h : setLoop s session exp cands = .error e) : e = .randomSource := by
  induction cands with
  | nil => simp [setLoop] at h; exact h.symm
  | cons c cs ih =>
    cases hl : loadS s c with
    | some v => rw [setLoop, hl] at h; simp at h; exact ih h
    | none => rw [setLoop, hl] at h; simp at h

theorem set_ok_inv (sm : SyncMap) (session : GoAny) (now : Int) (cands : List Key)
    (k : Key) (sm' : SyncMap) (h : sm.set session now cands = (.ok k, sm')) :
    k ∈ cands ∧ loadS sm.entries k = none ∧
      sm' = { sm with
        entries := storeS sm.entries k (session, now + sm.durationToExpire) } := by
  rw [SyncMap.set] at h
  by_cases hn : session = GoAny.nil
  · simp [hn] at h
  · rw [if_neg hn] at h
    cases hsl : setLoop sm.entries session (now + sm.durationToExpire) cands with
    | error e => rw [hsl] at h; simp at h
    | ok p =>
      rw [hsl] at h
      obtain ⟨k0, s0⟩ := p
      simp at h
      obtain ⟨hk, hsm⟩ := h
      subst hk
      obtain ⟨h1, h2, h3⟩ := setLoop_ok _ _ _ _ _ _ hsl
      exact ⟨h1, h2, by rw [← hsm, h3]⟩

theorem set_error_inv (sm : SyncMap) (session : GoAny) (now : Int) (cands : List Key)
    (e : SukErr) (sm' : SyncMap) (h : sm.set session now cands = (.error e, sm')) :
    sm' = sm := by
  rw [SyncMap.set] at h
  by_cases hn : session = GoAny.nil
  · simp [hn] at h; exact h.2.symm
  · rw [if_neg hn] at h
    cases hsl : setLoop sm.entries session (now + sm.durationToExpire) cands with
    | error e0 => rw [hsl] at h; simp at h; exact h.2.symm
    | ok p => rw [hsl] at h; simp at h

theorem set_entries_cases (sm : SyncMap) (session : GoAny) (now : Int)
    (cands : List Key) :
    (sm.set session now cands).2 = sm ∨
      ∃ k ∈ cands, (sm.set session now cands).2.entries
        = storeS sm.entries k (session, now + sm.durationToExpire) := by
  cases h : sm.set session now cands with
  | mk r sm' =>
    cases r with
    | error e => left; simp [set_error_inv sm session now cands e sm' h]
    | ok k =>
      right
      obtain ⟨h1, _, h3⟩ := set_ok_inv sm session now cands k sm' h
      exact ⟨k, h1, by simp [h3]⟩

theorem get_entries_cases (sm : SyncMap) (key : Key) (now : Int) (cands : List Key) :
    (sm.get key now cands).2 = sm ∨
      (sm.get key now cands).2.entries = eraseS sm.entries key ∨
      ∃ k ∈ cands, ∃ v, (sm.get key now cands).2.entries
        = storeS (eraseS sm.entries key) k v := by
  cases hl : loadS sm.entries key with
  | none => left; simp [SyncMap.get, hl]
  | some p =>
    obtain ⟨d, exp⟩ := p
    by_cases he : exp ≤ now
    · right; left; simp [SyncMap.get, hl, he]
    · cases hs : SyncMap.set { sm with entries := eraseS sm.entries key }
          (GoAny.wrap d exp) now cands with
      | mk r sm2 =>
        cases r with
        | error e =>
          right; left
          have h2 := set_error_inv _ _ _ _ _ _ hs
          simp [SyncMap.get, hl, he, hs, h2]
        | ok nk =>
          right; right
          obtain ⟨h1, _, h3⟩ := set_ok_inv _ _ _ _ _ _ hs
          refine ⟨nk, h1, (GoAny.wrap d exp, now + sm.durationToExpire), ?_⟩
          simp [SyncMap.get, hl, he, hs, h3]

theorem step_none (sm : SyncMap) (K : Key) (op : Op)
    (h : loadS sm.entries K = none) (hc : K ∉ op.cands) :
    loadS (sm.step op).entries K = none := by
  cases op with
  | opSet session now cs =>
    rw [SyncMap.step]
    rcases set_entries_cases sm session now cs with hcase | ⟨k, hk, hcase⟩
    · rw [hcase]; exact h
    · rw [hcase, loadS_storeS_ne]
      · exact h
      · exact fun hKk => hc (hKk ▸ hk)
  | opGet key now cs =>
    rw [SyncMap.step]
    have herase : loadS (eraseS sm.entries key) K = none := by
      rw [loadS_none_iff] at h ⊢
      exact fun e he => h e ((eraseS_sublist sm.entries key).subset he)
    rcases get_entries_cases sm key now cs with hcase | hcase | ⟨k, hk, v, hcase⟩
    · rw [hcase]; exact h
    · rw [hcase]; exact herase
    · rw [hcase, loadS_storeS_ne]
      · exact herase
      · exact fun hKk => hc (hKk ▸ hk)
  | opRemove key =>
    rw [SyncMap.step, SyncMap.remove]
    rw [loadS_none_iff] at h ⊢
    exact fun e he => h e ((eraseS_sublist sm.entries key).subset he)
  | opClearExpired now =>
    rw [SyncMap.step, SyncMap.clearExpired]
    exact loadS_clearExpiredS_none now sm.entries K h

theorem run_none (sm : SyncMap) (K : Key) (ops : List Op)
    (h : loadS sm.entries K = none) (hc : ∀ op ∈ ops, K ∉ op.cands) :
    loadS (sm.run ops).entries K = none := by
  induction ops generalizing sm with
  | nil => exact h
  | cons o os ih =>
    rw [SyncMap.run]
    exact ih (sm.step o)
      (step_none sm K o h (hc o (by simp)))
      (fun op hop => hc op (by simp [hop]))

theorem not_mem_keys_of_loadS_none {s : Store} {k : Key}
    (h : loadS s k = none) : k ∉ s.map (fun e => e.1) := by
  rw [loadS_none_iff] at h
  intro hmem
  obtain ⟨e, he, hek⟩ := List.mem_map.1 hmem
  exact h e he hek

theorem keysNodup_eraseS {s : Store} (k : Key) (h : KeysNodup s) :
    KeysNodup (eraseS s k) :=
  h.sublist ((eraseS_sublist s k).map (fun e => e.1))

theorem keysNodup_storeS {s : Store} (k : Key) (v : GoAny × Int)
    (h : KeysNodup s) : KeysNodup (storeS s k v) := by
  rw [KeysNodup, storeS, List.map_append, List.nodup_append]
  refine ⟨keysNodup_eraseS k h, by simp, ?_⟩
  intro a ha hb
  simp at hb
  subst hb
  exact not_mem_keys_of_loadS_none (loadS_eraseS_self s a) ha

theorem keysNodup_clearExpiredS {s : Store} (now : Int) (h : KeysNodup s) :
    KeysNodup (clearExpiredS now s) :=
  h.sublist ((clearExpiredS_sublist now s).map (fun e => e.1))

theorem step_keysNodup (sm : SyncMap) (op : Op) (h : KeysNodup sm.entries) :
    KeysNodup (sm.step op).entries := by
  cases op with
  | opSet session now cs =>
    rw [SyncMap.step]
    rcases set_entries_cases sm session now cs with hcase | ⟨k, _, hcase⟩
    · rw [hcase]; exact h
    · rw [hcase]; exact keysNodup_storeS k _ h
  | opGet key now cs =>
    rw [SyncMap.step]
    rcases get_entries_cases sm key now cs with hcase | hcase | ⟨k, _, v, hcase⟩
    · rw [hcase]; exact h
    · rw [hcase]; exact keysNodup_eraseS key h
    · rw [hcase]; exact keysNodup_storeS k _ (keysNodup_eraseS key h)
  | opRemove key =>
    rw [SyncMap.step, SyncMap.remove]
    exact keysNodup_eraseS key h
  | opClearExpired now =>
    rw [SyncMap.step, SyncMap.clearExpired]
    exact keysNodup_clearExpiredS now h

theorem run_keysNodup (sm : SyncMap) (ops : List Op) (h : KeysNodup sm.entries) :
    KeysNodup (sm.run ops).entries := by
  induction ops generalizing sm with
  | nil => exact h
  | cons o os ih => exact ih (sm.step o) (step_keysNodup sm o h)

theorem get_noKeyFound (sm : SyncMap) (key : Key) (now : Int) (cands : List Key)
    (h : loadS sm.entries key = none) :
    sm.get key now cands = (.error .noKeyFound, sm) := by
  simp [SyncMap.get, h]

theorem get_expired (sm : SyncMap) (key : Key) (now : Int) (cands : List Key)
    (d : GoAny) (exp : Int) (hl : loadS sm.entries key = some (d, exp))
    (he : exp ≤ now) :
    sm.get key now cands
      = (.error .keyWasExpired, { sm with entries := eraseS sm.entries key }) := by
  simp [SyncMap.get, hl, he]

theorem get_ok_inv (sm : SyncMap) (key : Key) (now : Int) (cands : List Key)
    (p : GoAny) (nk : Key) (sm' : SyncMap)
    (h : sm.get key now cands = (.ok (p, nk), sm')) :
    ∃ exp, loadS sm.entries key = some (p, exp) ∧ now < exp ∧ nk ∈ cands ∧
      loadS (eraseS sm.entries key) nk = none ∧
      sm' = { sm with entries := storeS (eraseS sm.entries key) nk (GoAny.wrap p exp, now + sm.durationToExpire) } := by
  cases hl : loadS sm.entries key with
  | none => rw [get_noKeyFound sm key now cands hl] at h; simp at h
  | some q =>
    obtain ⟨d, exp⟩ := q
    by_cases he : exp ≤ now
    · rw [get_expired sm key now cands d exp hl he] at h; simp at h
    · cases hs : SyncMap.set { sm with entries := eraseS sm.entries key }
          (GoAny.wrap d exp) now cands with
      | mk r sm2 =>
        cases r with
        | error e => simp [SyncMap.get, hl, he, hs] at h
        | ok nk0 =>
          simp [SyncMap.get, hl, he, hs] at h
          obtain ⟨⟨hp, hnk⟩, hsm⟩ := h
          subst hp; subst hnk; subst hsm
          obtain ⟨h1, h2, h3⟩ := set_ok_inv _ _ _ _ _ _ hs
          exact ⟨exp, rfl, lt_of_not_le he, h1, h2, h3⟩

theorem loadS_clearExpiredS_char (now : Int) (s : Store) (k : Key) (d : GoAny)
    (e : Int) (hnd : KeysNodup s) (h : loadS s k = some (d, e)) :
    loadS (clearExpiredS now s) k = if e ≤ now then none else some (d, e) := by
  induction s with
  | nil => simp [loadS] at h
  | cons x xs ih =>
    have hnd' : KeysNodup xs := by
      rw [KeysNodup] at hnd ⊢
      simpa using hnd.of_cons
    by_cases hx : x.1 = k
    · rw [loadS, if_pos hx] at h
      have hx2 : x.2 = (d, e) := Option.some.inj h
      have hxk : k ∉ xs.map (fun e => e.1) := by
        rw [KeysNodup, List.map_cons, List.nodup_cons] at hnd
        exact hx ▸ hnd.1
      have hxs : loadS xs k = none :=
        loadS_none_of_forall_ne (fun e he hek =>
          hxk (hek ▸ List.mem_map_of_mem (fun e => e.1) he))
      by_cases hexp : x.2.2 ≤ now
      · rw [clearExpiredS, if_pos hexp]
        have hee : e ≤ now := by rw [hx2] at hexp; exact hexp
        rw [if_pos hee]
        exact loadS_clearExpiredS_none now xs k hxs
      · rw [clearExpiredS, if_neg hexp, loadS, if_pos hx, hx2]
        have hee : ¬ e ≤ now := by rw [hx2] at hexp; exact hexp
        rw [if_neg hee]
    · rw [loadS, if_neg hx] at h
      by_cases hexp : x.2.2 ≤ now
      · rw [clearExpiredS, if_pos hexp]
        exact ih hnd' h
      · rw [clearExpiredS, if_neg hexp, loadS, if_neg hx]
        exact ih hnd' h

theorem randomID_length (n : Nat) (rnd : Nat → Nat) : (randomID n rnd).length = n := by
  simp [randomID]

theorem applyOpts1_errs (c : Config1) (errs : List CfgErr) (opts : List Opt1) :
    (applyOpts1 c errs opts).2 = errs ++ collectErrs1 c opts := by
  induction opts generalizing c errs with
  | nil => simp [applyOpts1, collectErrs1]
  | cons o os ih =>
    cases h : o.apply c with
    | ok c1 => rw [applyOpts1, h, collectErrs1, h]; exact ih c1 errs
    | error e => rw [applyOpts1, h, collectErrs1, h, ih c (errs ++ [e])]; simp

theorem apply1_keyLength_eq (o : Opt1) (c c1 : Config1) (h : o.apply c = .ok c1)
    (ho : ∀ l, o ≠ Opt1.withCustomKeyLength l) :
    c1.customKeyLength = c.customKeyLength := by
  cases o with
  | withRedis b =>
    rw [Opt1.apply] at h
    split at h
    · simp at h
    · split at h
      · simp at h
      · simp at h; subst h; rfl
  | withCustomKeyLength l => exact absurd rfl (ho l)
  | withTokenDuration d =>
    rw [Opt1.apply] at h
    split at h
    · simp at h
    · simp at h; subst h; rfl
  | withAutoExpiredClear =>
    rw [Opt1.apply] at h
    split at h
    · simp at h
    · simp at h; subst h; rfl

theorem applyOpts1_keyLength_none (c : Config1) (errs : List CfgErr)
    (opts : List Opt1) (hc : c.customKeyLength = none)
    (h : ∀ l, Opt1.withCustomKeyLength l ∉ opts) :
    (applyOpts1 c errs opts).1.customKeyLength = none := by
  induction opts generalizing c errs with
  | nil => simpa [applyOpts1] using hc
  | cons o os ih =>
    have hos : ∀ l, Opt1.withCustomKeyLength l ∉ os := fun l hl => h l (by simp [hl])
    cases hap : o.apply c with
    | ok c1 =>
      rw [applyOpts1, hap]
      have : c1.customKeyLength = none := by
        rw [apply1_keyLength_eq o c c1 hap (fun l he => h l (by simp [he]))]
        exact hc
      exact ih c1 errs this hos
    | error e =>
      rw [applyOpts1, hap]
      exact ih c (errs ++ [e]) hc hos

theorem apply2_keyLength_eq (o : Opt2) (c c1 : Config2) (h : o.apply c = .ok c1)
    (ho : ∀ l, o ≠ Opt2.withKeyLength l) :
    c1.customKeyLength = c.customKeyLength := by
  cases o with
  | withRedis b =>
    rw [Opt2.apply] at h
    split at h
    · simp at h
    · split at h
      · simp at h
      · simp at h; subst h; rfl
  | withKeyLength l => exact absurd rfl (ho l)
  | withKeyDuration d =>
    rw [Opt2.apply] at h
    split at h
    · simp at h
    · split at h
      · simp at h
      · simp at h; subst h; rfl
  | withAutoClearExpiredKeys =>
    rw [Opt2.apply] at h
    simp at h; subst h; rfl

theorem applyOpts2_keyLength_none (c : Config2) (errs : List CfgErr)
    (opts : List Opt2) (hc : c.customKeyLength = none)
    (h : ∀ l, Opt2.withKeyLength l ∉ opts) :
    (applyOpts2 c errs opts).1.customKeyLength = none := by
  induction opts generalizing c errs with
  | nil => simpa [applyOpts2] using hc
  | cons o os ih =>
    have hos : ∀ l, Opt2.withKeyLength l ∉ os := fun l hl => h l (by simp [hl])
    cases hap : o.apply c with
    | ok c1 =>
      rw [applyOpts2, hap]
      have : c1.customKeyLength = none := by
        rw [apply2_keyLength_eq o c c1 hap (fun l he => h l (by simp [he]))]
        exact hc
      exact ih c1 errs this hos
    | error e =>
      rw [applyOpts2, hap]
      exact ih c (errs ++ [e]) hc hos

theorem newSessionStorage_default_keyLength (opts : List Opt1) (st : StorageChoice)
    (h : NewSessionStorage opts = .ok st)
    (hno : ∀ l, Opt1.withCustomKeyLength l ∉ opts) :
    st.keyLength = maxCookieSize := by
  have hkl : (applyOpts1 {} [] opts).1.customKeyLength = none :=
    applyOpts1_keyLength_none {} [] opts rfl hno
  simp only [NewSessionStorage] at h
  by_cases he : (applyOpts1 {} [] opts).2 = []
  · rw [if_pos he] at h
    by_cases hr : (applyOpts1 {} [] opts).1.redisSet
    · rw [if_pos hr] at h
      simp at h
      rw [← h, StorageChoice.keyLength, hkl]
      rfl
    · rw [if_neg hr] at h
      simp at h
      rw [← h, StorageChoice.keyLength, hkl]
      rfl
  · rw [if_neg he] at h
    simp at h

theorem new_default_keyLength (opts : List Opt2) (st : StorageChoice)
    (h : New opts = .ok st)
    (hno : ∀ l, Opt2.withKeyLength l ∉ opts) :
    st.keyLength = defaultKeyLength := by
  have hkl : (applyOpts2 {} [] opts).1.customKeyLength = none :=
    applyOpts2_keyLength_none {} [] opts rfl hno
  simp only [New] at h
  by_cases he : (applyOpts2 {} [] opts).2 = []
  · rw [if_pos he] at h
    by_cases hr : (applyOpts2 {} [] opts).1.redisSet
    · rw [if_pos hr] at h
      simp at h
      rw [← h, StorageChoice.keyLength, hkl]
      rfl
    · rw [if_neg hr] at h
      simp at h
      rw [← h, StorageChoice.keyLength, hkl]
      rfl
  · rw [if_neg he] at h
    simp at h

/-- C1: rotation does NOT preserve the payload on the in-memory backend.
Concrete run: Set stores payload `base "p"` under key `[0]`; Get(`[0]`)
succeeds returning the payload and key `[1]`, but re-inserts the loaded
`value` struct itself (suk.go line 90 passes `session`, not `v.data`, to
`set`), so the record at `[1]` holds `wrap (base "p") 10`; the second Get
then returns that internal wrapper, which differs from the payload
originally stored by Set. -/
theorem suk_c1_rotation_returns_wrapper :
    ((SyncMap.mk [] 32 10).set (GoAny.base "p") 0 [[0]])
      = (.ok [0], SyncMap.mk [([0], GoAny.base "p", 10)] 32 10) ∧
    ((SyncMap.mk [([0], GoAny.base "p", 10)] 32 10).get [0] 0 [[1]])
      = (.ok (GoAny.base "p", [1]),
         SyncMap.mk [([1], GoAny.wrap (GoAny.base "p") 10, 10)] 32 10) ∧
    (((SyncMap.mk [([1], GoAny.wrap (GoAny.base "p") 10, 10)] 32 10).get [1] 5 [[2]]).1
      = .ok (GoAny.wrap (GoAny.base "p") 10, [2])) ∧
    GoAny.wrap (GoAny.base "p") 10 ≠ GoAny.base "p" := by
  decide

/-- C2 (counterexample): the claim "after K has been consumed by a
successful Get, every further Get(K) fails, for any later sequence of
Set/Get/Remove operations" is false: key generation excludes only
currently-live keys, so a later Set may re-mint a consumed key.  Concrete
run: Set mints `[0]`; Get(`[0]`) succeeds (consuming it); a later Set whose
generator draws `[0]` again succeeds because `[0]` is free; a second
Get(`[0]`) then also succeeds. -/
theorem suk_c2_counterexample :
    (((SyncMap.mk [] 32 10).set (GoAny.base "p") 0 [[0]]).1 = .ok [0]) ∧
    ((SyncMap.mk [([0], GoAny.base "p", 10)] 32 10).get [0] 0 [[1]]
      = (.ok (GoAny.base "p", [1]),
         SyncMap.mk [([1], GoAny.wrap (GoAny.base "p") 10, 10)] 32 10)) ∧
    ((SyncMap.mk [([1], GoAny.wrap (GoAny.base "p") 10, 10)] 32 10).set
        (GoAny.base "q") 0 [[0]]
      = (.ok [0],
         SyncMap.mk [([1], GoAny.wrap (GoAny.base "p") 10, 10),
           ([0], GoAny.base "q", 10)] 32 10)) ∧
    (((SyncMap.mk [([1], GoAny.wrap (GoAny.base "p") 10, 10),
        ([0], GoAny.base "q", 10)] 32 10).get [0] 5 [[2]]).1
      = .ok (GoAny.base "q", [2])) := by
  decide

/-- C2 (amended): a successful Get(K) whose freshly generated key avoids K
leaves K dead, and K stays dead — every later Get(K) fails with
`ErrNoKeyFound` — across any sequence of operations none of whose generated
candidate keys is K; without that freshness proviso a later Set can re-mint
K (see the counterexample). -/
theorem suk_c2_single_use_amended :
    (∀ (sm : SyncMap) (k : Key) (now : Int) (cands : List Key) (p : GoAny)
        (nk : Key) (sm1 : SyncMap),
      sm.get k now cands = (.ok (p, nk), sm1) → k ∉ cands →
        loadS sm1.entries k = none ∧ nk ≠ k) ∧
    (∀ (sm : SyncMap) (K : Key) (ops : List Op),
      loadS sm.entries K = none → (∀ op ∈ ops, K ∉ op.cands) →
        ∀ (now : Int) (cands : List Key),
          ((sm.run ops).get K now cands).1 = .error .noKeyFound) := by
  constructor
  · intro sm k now cands p nk sm1 h hk
    obtain ⟨exp, _, _, hmem, _, h5⟩ := get_ok_inv sm k now cands p nk sm1 h
    have hne : nk ≠ k := fun he => hk (he ▸ hmem)
    refine ⟨?_, hne⟩
    rw [h5]
    simp only
    rw [loadS_storeS_ne _ _ _ _ (fun he => hne he.symm)]
    exact loadS_eraseS_self sm.entries k
  · intro sm K ops h hc now cands
    rw [get_noKeyFound _ _ now cands (run_none sm K ops h hc)]

/-- Witness for the amended C2 at concrete inputs: Get(`[0]`) on a store
holding `[0]` rotates to `[1]`, after which `[0]` is dead; and on a store
where `[0]` is dead, a run of operations avoiding `[0]` keeps Get(`[0]`)
failing with `ErrNoKeyFound`. -/
theorem suk_c2_single_use_amended_witness :
    (loadS (SyncMap.mk [([1], GoAny.wrap (GoAny.base "p") 10, 10)] 32 10).entries [0] = none
      ∧ [1] ≠ ([0] : Key)) ∧
    ((((SyncMap.mk [] 32 10).run
        [Op.opSet (GoAny.base "q") 0 [[1]], Op.opRemove [1]]).get [0] 3 [[2]]).1
      = .error .noKeyFound) :=
  ⟨suk_c2_single_use_amended.1 (SyncMap.mk [([0], GoAny.base "p", 10)] 32 10)
      [0] 0 [[1]] (GoAny.base "p") [1]
      (SyncMap.mk [([1], GoAny.wrap (GoAny.base "p") 10, 10)] 32 10)
      (by decide) (by decide),
   suk_c2_single_use_amended.2 (SyncMap.mk [] 32 10) [0]
      [Op.opSet (GoAny.base "q") 0 [[1]], Op.opRemove [1]]
      (by decide) (by decide) 3 [[2]]⟩

/-- C3: on the in-memory backend, Get of a key whose record has expired
fails with `ErrKeyWasExpired` (a different error from `ErrNoKeyFound`),
returns no payload, and the record is removed from the backend as a side
effect of the failing call. -/
theorem suk_c3_expired_get (sm : SyncMap) (key : Key) (now : Int)
    (cands : List Key) (d : GoAny) (exp : Int)
    (hl : loadS sm.entries key = some (d, exp)) (he : exp ≤ now) :
    sm.get key now cands
      = (.error .keyWasExpired, { sm with entries := eraseS sm.entries key }) ∧
    SukErr.keyWasExpired ≠ SukErr.noKeyFound ∧
    loadS (sm.get key now cands).2.entries key = none := by
  refine ⟨get_expired sm key now cands d exp hl he, by decide, ?_⟩
  rw [get_expired sm key now cands d exp hl he]
  exact loadS_eraseS_self sm.entries key

/-- Witness for C3: a record at `[0]` expired at time 5 read at time 6. -/
theorem suk_c3_expired_get_witness :
    (SyncMap.mk [([0], GoAny.base "s", 5)] 32 10).get [0] 6 [[1]]
      = (.error .keyWasExpired,
         { SyncMap.mk [([0], GoAny.base "s", 5)] 32 10 with
             entries := eraseS [([0], GoAny.base "s", 5)] [0] }) :=
  (suk_c3_expired_get (SyncMap.mk [([0], GoAny.base "s", 5)] 32 10) [0] 6 [[1]]
    (GoAny.base "s") 5 (by decide) (by decide)).1

/-- C4 (counterexample): a store built by `NewSessionStorage` (suk.go) with
no custom key-length option has `keyLength = maxCookieSize = 4096`, and its
first Set returns a key of length 4096, not 32. -/
theorem suk_c4_counterexample :
    NewSessionStorage [] = .ok (.mem (SyncMap.mk [] 4096 600000000000)) ∧
    ((SyncMap.mk [] 4096 600000000000).setR (GoAny.base "s") 0 [fun _ => 0]).1
      = .ok (randomID 4096 (fun _ => 0)) ∧
    (randomID 4096 (fun _ => 0)).length = 4096 ∧ (4096 : Nat) ≠ 32 := by
  refine ⟨rfl, rfl, randomID_length 4096 (fun _ => 0), by decide⟩

/-- C4 (amended): the default key length is `maxCookieSize = 4096` for
stores built by `NewSessionStorage` (suk.go) and `defaultKeyLength = 32`
for stores built by `New` (the part_006 revision); in either case every key
returned by a successful Set or Get has exactly the store's key length,
because each key is a `randomID(keyLength)` output. -/
theorem suk_c4_key_length :
    (∀ (opts : List Opt1) (st : StorageChoice), NewSessionStorage opts = .ok st →
      (∀ l, Opt1.withCustomKeyLength l ∉ opts) → st.keyLength = 4096) ∧
    (∀ (opts : List Opt2) (st : StorageChoice), New opts = .ok st →
      (∀ l, Opt2.withKeyLength l ∉ opts) → st.keyLength = 32) ∧
    (∀ (sm : SyncMap) (session : GoAny) (now : Int) (rnds : List (Nat → Nat))
        (k : Key) (sm1 : SyncMap),
      sm.setR session now rnds = (.ok k, sm1) → k.length = sm.keyLength) ∧
    (∀ (sm : SyncMap) (key : Key) (now : Int) (rnds : List (Nat → Nat))
        (p : GoAny) (nk : Key) (sm1 : SyncMap),
      sm.getR key now rnds = (.ok (p, nk), sm1) → nk.length = sm.keyLength) := by
  refine ⟨newSessionStorage_default_keyLength, new_default_keyLength, ?_, ?_⟩
  · intro sm session now rnds k sm1 h
    obtain ⟨hmem, _, _⟩ := set_ok_inv _ _ _ _ _ _ h
    obtain ⟨r, _, hr⟩ := List.mem_map.1 hmem
    rw [← hr]
    exact randomID_length sm.keyLength r
  · intro sm key now rnds p nk sm1 h
    obtain ⟨exp, _, _, hmem, _, _⟩ := get_ok_inv _ _ _ _ _ _ _ h
    obtain ⟨r, _, hr⟩ := List.mem_map.1 hmem
    rw [← hr]
    exact randomID_length sm.keyLength r

/-- Witness for the amended C4: `New` with no options yields key length 32,
`NewSessionStorage` with no options yields 4096, and a concrete Set on a
32-length store returns a 32-character key. -/
theorem suk_c4_key_length_witness :
    (StorageChoice.mem (SyncMap.mk [] 32 600000000000)).keyLength = 32 ∧
    (StorageChoice.mem (SyncMap.mk [] 4096 600000000000)).keyLength = 4096 ∧
    (randomID 32 (fun _ => 0)).length = (SyncMap.mk [] 32 10).keyLength :=
  ⟨suk_c4_key_length.2.1 [] (.mem (SyncMap.mk [] 32 600000000000)) rfl
      (fun l h => by simp at h),
   suk_c4_key_length.1 [] (.mem (SyncMap.mk [] 4096 600000000000)) rfl
      (fun l h => by simp at h),
   suk_c4_key_length.2.2.1 (SyncMap.mk [] 32 10) (GoAny.base "s") 0
      [fun _ => 0] (randomID 32 (fun _ => 0))
      (SyncMap.mk [([0].append (List.replicate 31 0), GoAny.base "s", 10)] 32 10)
      (by decide)⟩

/-- C5: the zero-key-length and non-positive-duration configurations each
surface their own named error, and duplicate `WithKeyLength` and
`WithKeyDuration` surface their own named duplicate errors; but a duplicate
`WithAutoExpiredClear` (config.go lines 86-96) returns
`ErrCustomTokenDurationAlreadySet` — the duration option's duplicate error,
not the dedicated `ErrAutoExpiredClearAlreadySet` defined at config.go
line 17 — so that option kind does not surface its own named error. -/
theorem suk_c5_config_error_values :
    Opt2.apply (.withKeyLength 0) {} = .error .zeroKeyLength ∧
    Opt2.apply (.withKeyDuration 0) {} = .error .nonPositiveKeyDuration ∧
    Opt2.apply (.withKeyLength 7) { customKeyLength := some 5 }
      = .error .customKeyLengthAlreadySet ∧
    Opt2.apply (.withKeyDuration 7) { customKeyDuration := some 5 }
      = .error .customKeyDurationAlreadySet ∧
    Opt1.apply .withAutoExpiredClear { autoExpiredClear := some true }
      = .error .customTokenDurationAlreadySet ∧
    CfgErr.customTokenDurationAlreadySet ≠ CfgErr.autoExpiredClearAlreadySet := by
  decide

/-- C6: `NewSessionStorage` aggregates the error of every failing option —
`collectErrs1` lists the error of each failing option in order, and the
constructor returns exactly that aggregate when it is non-empty — and
returns a store with no error when every option is valid. -/
theorem suk_c6_error_aggregation (opts : List Opt1) :
    (collectErrs1 {} opts = [] → ∃ st, NewSessionStorage opts = .ok st) ∧
    (collectErrs1 {} opts ≠ [] →
      NewSessionStorage opts = .error (collectErrs1 {} opts)) := by
  have hsnd : (applyOpts1 {} [] opts).2 = collectErrs1 {} opts := by
    simpa using applyOpts1_errs {} [] opts
  constructor
  · intro h
    by_cases hr : (applyOpts1 {} [] opts).1.redisSet
    · refine ⟨.redis ((applyOpts1 {} [] opts).1.customKeyLength.getD maxCookieSize)
        ((applyOpts1 {} [] opts).1.customTokenDuration.getD defaultDurationToExpire), ?_⟩
      simp [NewSessionStorage, hsnd, h, hr]
    · refine ⟨.mem (SyncMap.mk []
        ((applyOpts1 {} [] opts).1.customKeyLength.getD maxCookieSize)
        ((applyOpts1 {} [] opts).1.customTokenDuration.getD defaultDurationToExpire)), ?_⟩
      simp [NewSessionStorage, hsnd, h, hr]
  · intro h
    simp [NewSessionStorage, hsnd, h]

/-- Witness for C6: two duplicate-option errors are aggregated together
(not just the first), and no-options construction succeeds. -/
theorem suk_c6_error_aggregation_witness :
    NewSessionStorage [Opt1.withCustomKeyLength 1, Opt1.withCustomKeyLength 2,
        Opt1.withTokenDuration 3, Opt1.withTokenDuration 4]
      = .error [CfgErr.customKeyLengthAlreadySet,
          CfgErr.customTokenDurationAlreadySet] ∧
    NewSessionStorage [] = .ok (.mem (SyncMap.mk [] 4096 600000000000)) := by
  constructor
  · have h := (suk_c6_error_aggregation [Opt1.withCustomKeyLength 1,
      Opt1.withCustomKeyLength 2, Opt1.withTokenDuration 3,
      Opt1.withTokenDuration 4]).2 (by decide)
    rw [h]
    rfl
  · obtain ⟨st, hst⟩ := (suk_c6_error_aggregation []).1 (by decide)
    rw [show NewSessionStorage [] = .ok st from hst] at hst
    exact rfl

/-- C7: a successful Set returns a key that was not live in the pre-state
and never overwrites an existing record (the post-state is the pre-state
with exactly one new record appended, every other key reading as before);
and in every state reachable from the empty store by sequential
Set/Get/Remove/ClearExpired operations the live keys are pairwise
distinct. -/
theorem suk_c7_collision_free :
    (∀ (sm : SyncMap) (session : GoAny) (now : Int) (cands : List Key)
        (k : Key) (sm1 : SyncMap),
      sm.set session now cands = (.ok k, sm1) →
        loadS sm.entries k = none ∧
        sm1.entries = sm.entries ++ [(k, session, now + sm.durationToExpire)] ∧
        ∀ k1, k1 ≠ k → loadS sm1.entries k1 = loadS sm.entries k1) ∧
    (∀ (kl : Nat) (dur : Int) (ops : List Op),
      KeysNodup ((SyncMap.run (SyncMap.mk [] kl dur) ops).entries)) := by
  constructor
  · intro sm session now cands k sm1 h
    obtain ⟨_, h2, h3⟩ := set_ok_inv sm session now cands k sm1 h
    refine ⟨h2, ?_, ?_⟩
    · rw [h3]
      simp only
      rw [storeS, eraseS_of_loadS_none sm.entries k h2]
    · intro k1 hne
      rw [h3]
      simp only
      exact loadS_storeS_ne sm.entries k k1 _ hne
  · intro kl dur ops
    exact run_keysNodup (SyncMap.mk [] kl dur) ops (by simp [KeysNodup])

/-- Witness for C7: a concrete successful Set on a one-record store mints
the fresh key `[1]`, appends exactly one record, and leaves the record at
`[0]` readable as before; a concrete operation sequence from the empty
store ends with pairwise-distinct keys. -/
theorem suk_c7_collision_free_witness :
    (loadS [([0], GoAny.base "a", 10)] [1] = none ∧
      (SyncMap.mk [([0], GoAny.base "a", 10), ([1], GoAny.base "b", (5:Int) + 10)] 32 10).entries
        = [([0], GoAny.base "a", 10)] ++ [([1], GoAny.base "b", 5 + 10)] ∧
      ∀ k1, k1 ≠ [1] →
        loadS (SyncMap.mk [([0], GoAny.base "a", 10), ([1], GoAny.base "b", (5:Int) + 10)] 32 10).entries k1
          = loadS [([0], GoAny.base "a", 10)] k1) ∧
    KeysNodup ((SyncMap.run (SyncMap.mk [] 32 10)
      [Op.opSet (GoAny.base "a") 0 [[0]], Op.opSet (GoAny.base "b") 0 [[0], [1]],
        Op.opGet [0] 3 [[2]]]).entries) :=
  ⟨suk_c7_collision_free.1 (SyncMap.mk [([0], GoAny.base "a", 10)] 32 10)
      (GoAny.base "b") 5 [[0], [1]] [1]
      (SyncMap.mk [([0], GoAny.base "a", 10), ([1], GoAny.base "b", (5:Int) + 10)] 32 10)
      (by decide),
   suk_c7_collision_free.2 32 10
     [Op.opSet (GoAny.base "a") 0 [[0]], Op.opSet (GoAny.base "b") 0 [[0], [1]],
       Op.opGet [0] 3 [[2]]]⟩

/-- C8: on the in-memory backend (whose live keys are pairwise distinct),
`clearExpired` returns no error, removes every record whose expiration has
passed, and leaves every unexpired record unchanged; on the Redis backend
`clearExpired` is a no-op returning no error. -/
theorem suk_c8_clear_expired (sm : SyncMap) (now : Int)
    (hnd : KeysNodup sm.entries) :
    (sm.clearExpired now).1 = .ok () ∧
    (∀ (k : Key) (d : GoAny) (e : Int), loadS sm.entries k = some (d, e) →
      (e ≤ now → loadS (sm.clearExpired now).2.entries k = none) ∧
      (now < e → loadS (sm.clearExpired now).2.entries k = some (d, e))) ∧
    (∀ k : Key, loadS sm.entries k = none →
      loadS (sm.clearExpired now).2.entries k = none) ∧
    (∀ (α : Type) (r : α), redisClearExpired r = (.ok (), r)) := by
  refine ⟨rfl, ?_, ?_, fun α r => rfl⟩
  · intro k d e h
    constructor
    · intro he
      rw [SyncMap.clearExpired]
      simp only
      rw [loadS_clearExpiredS_char now sm.entries k d e hnd h, if_pos he]
    · intro he
      rw [SyncMap.clearExpired]
      simp only
      rw [loadS_clearExpiredS_char now sm.entries k d e hnd h,
        if_neg (not_le_of_lt he)]
  · intro k h
    rw [SyncMap.clearExpired]
    simp only
    exact loadS_clearExpiredS_none now sm.entries k h

/-- Witness for C8: at time 10, clearing a store holding an expired record
at `[0]` (expiration 5) and a live record at `[1]` (expiration 20) removes
the first and keeps the second. -/
theorem suk_c8_clear_expired_witness :
    ((SyncMap.mk [([0], GoAny.base "a", 5), ([1], GoAny.base "b", 20)] 32 10).clearExpired 10).1
      = .ok () ∧
    loadS ((SyncMap.mk [([0], GoAny.base "a", 5), ([1], GoAny.base "b", 20)] 32 10).clearExpired 10).2.entries [0]
      = none ∧
    loadS ((SyncMap.mk [([0], GoAny.base "a", 5), ([1], GoAny.base "b", 20)] 32 10).clearExpired 10).2.entries [1]
      = some (GoAny.base "b", 20) :=
  ⟨(suk_c8_clear_expired
      (SyncMap.mk [([0], GoAny.base "a", 5), ([1], GoAny.base "b", 20)] 32 10)
      10 (by rw [KeysNodup]; decide)).1,
   ((suk_c8_clear_expired
      (SyncMap.mk [([0], GoAny.base "a", 5), ([1], GoAny.base "b", 20)] 32 10)
      10 (by rw [KeysNodup]; decide)).2.1 [0] (GoAny.base "a") 5 (by decide)).1 (by decide),
   ((suk_c8_clear_expired
      (SyncMap.mk [([0], GoAny.base "a", 5), ([1], GoAny.base "b", 20)] 32 10)
      10 (by rw [KeysNodup]; decide)).2.1 [1] (GoAny.base "b") 20 (by decide)).2 (by decide)⟩

/-- C9: on the in-memory backend Remove never errors whether or not the key
is present, removing twice equals removing once (same resulting state and
same nil error), and Get after Remove fails with `ErrNoKeyFound`. -/
theorem suk_c9_remove_idempotent (sm : SyncMap) (k : Key) (now : Int)
    (cands : List Key) :
    (sm.remove k).1 = .ok () ∧
    (sm.remove k).2.remove k = sm.remove k ∧
    ((sm.remove k).2.get k now cands).1 = .error .noKeyFound := by
  refine ⟨rfl, ?_, ?_⟩
  · rw [SyncMap.remove, SyncMap.remove]
    simp [eraseS_idem]
  · have h : loadS (sm.remove k).2.entries k = none := by
      rw [SyncMap.remove]
      exact loadS_eraseS_self sm.entries k
    rw [get_noKeyFound _ _ now cands h]

/-- C10: a successful Get at instant `now` inserts the rotated record with
expiration `now + durationToExpire` — a fresh full TTL from the moment of
use, not the consumed record's original expiration (the original expiration
survives only inside the re-wrapped data field). -/
theorem suk_c10_rotation_resets_ttl (sm : SyncMap) (key : Key) (now : Int)
    (cands : List Key) (p : GoAny) (nk : Key) (sm1 : SyncMap)
    (h : sm.get key now cands = (.ok (p, nk), sm1)) :
    ∃ exp, loadS sm.entries key = some (p, exp) ∧
      loadS sm1.entries nk
        = some (GoAny.wrap p exp, now + sm.durationToExpire) := by
  obtain ⟨exp, h1, _, _, _, h5⟩ := get_ok_inv sm key now cands p nk sm1 h
  refine ⟨exp, h1, ?_⟩
  rw [h5]
  simp only
  exact loadS_storeS_self _ _ _

/-- Witness for C10: a record expiring at 5 is consumed at time 0 and the
rotated record under `[1]` expires at `0 + 10`, the time of the Get plus
the store TTL of 10, not at the original 5. -/
theorem suk_c10_rotation_resets_ttl_witness :
    ∃ exp, loadS [([0], GoAny.base "s", 5)] [0] = some (GoAny.base "s", exp) ∧
      loadS (SyncMap.mk [([1], GoAny.wrap (GoAny.base "s") 5, (0:Int) + 10)] 32 10).entries [1]
        = some (GoAny.wrap (GoAny.base "s") exp, 0 + 10) :=
  suk_c10_rotation_resets_ttl (SyncMap.mk [([0], GoAny.base "s", 5)] 32 10)
    [0] 0 [[1]] (GoAny.base "s") [1]
    (SyncMap.mk [([1], GoAny.wrap (GoAny.base "s") 5, (0:Int) + 10)] 32 10)
    (by decide)
